import Mathlib

/-!
Verification development for the `backend-mindset` task-management API.

This file gives a shallow embedding of the Django service layer
(`apps/tasks/services.py`, `apps/authentication/services.py`,
`apps/authentication/serializers.py`, `apps/core/utils/audit.py`,
`apps/tasks/views.py`, `apps/authentication/views.py`,
`apps/core/views.py`) and proves properties of the embedded operations.

Modelling conventions:
- Django model rows become Lean structures; the database is a pair of lists
  (tasks, audit rows).  Django model-instance equality compares primary keys,
  so a `Task` stores its owner's primary key (`user : Nat`).
- Python exceptions become `Except String`; each fallible primitive step
  (ORM create / save / delete) takes an oracle `Option String` saying whether
  and with which message it raises.  An operation returns the `Except` result
  paired with the database state after the operation, so the audit rows
  written on a failure path are visible.
- Strings are modelled over ASCII (`Char.isAlpha`, `Char.isDigit`,
  `String.toLower` stand in for Python's `str` methods).
-/

namespace BackendMindset

/-! ### Data model (`apps/core/models.py`, `apps/tasks/models.py`) -/

/-- `AuditLog.ACTION_CHOICES`. -/
inductive Action
  | CREATE
  | UPDATE
  | DELETE
  | ERROR
  deriving DecidableEq, Repr

/-- `AuditLog.STATUS_CHOICES`. -/
inductive AStatus
  | SUCCESS
  | FAILED
  deriving DecidableEq, Repr

/-- A row of the `audit_logs` table (`apps/core/models.py`).  `user` is a
nullable foreign key, stored here as the user's primary key. -/
structure AuditLog where
  user : Option Nat
  action : Action
  feature : String
  description : String
  ip_address : Option String
  status : AStatus
  deriving DecidableEq, Repr

/-- A user row (custom auth user).  `password` stands for the stored
credential that `check_password` validates. -/
structure User where
  id : Nat
  username : String
  email : String
  password : String
  is_active : Bool
  is_superuser : Bool
  deriving DecidableEq, Repr

/-- A row of the `tasks` table (`apps/tasks/models.py`).  `user` is the
owner's primary key; `status ∈ {TODO, IN_PROGRESS, DONE}` and
`priority ∈ {LOW, MEDIUM, HIGH}` are stored as strings as in the model. -/
structure Task where
  id : Nat
  user : Nat
  title : String
  description : String
  status : String
  priority : String
  due_date : Option Nat
  created_at : Nat
  updated_at : Nat
  deriving DecidableEq, Repr

/-- The HTTP request context, as far as the service layer reads it:
`request.user` (primary key of the authenticated user) and the two
`request.META` entries used for IP extraction. -/
structure Request where
  user : Nat
  httpXForwardedFor : Option String
  remoteAddr : Option String
  deriving DecidableEq, Repr

/-- Database state threaded through the service operations. -/
structure DB where
  tasks : List Task
  audit : List AuditLog
  deriving DecidableEq, Repr

/-! ### Audit logging (`apps/core/utils/audit.py`) -/

/-- IP extraction inside `log_activity`: prefer the first comma-separated
entry of `HTTP_X_FORWARDED_FOR`, stripped, else `REMOTE_ADDR`. -/
def extract_ip : Option Request → Option String
  | none => none
  | some r =>
    match r.httpXForwardedFor with
    | some xff => some (((xff.splitOn ",").headD "").trim)
    | none => r.remoteAddr

/-- The row built by `log_activity` before `AuditLog.objects.create`. -/
def mkAudit (user : Option Nat) (action : Action) (feature description : String)
    (req : Option Request) (status : AStatus) : AuditLog :=
  { user := user, action := action, feature := feature,
    description := description, ip_address := extract_ip req, status := status }

/-- `log_activity`: append one immutable audit row to the database. -/
def log_activity (db : DB) (user : Option Nat) (action : Action)
    (feature description : String) (req : Option Request) (status : AStatus) : DB :=
  { db with audit := db.audit ++ [mkAudit user action feature description req status] }

/-! ### TaskService (`apps/tasks/services.py`) -/

/-- The validated payload of `TaskCreateUpdateSerializer` for creation:
all fields that `Task.objects.create(user=user, **validated_data)` receives. -/
structure TaskData where
  title : String
  description : String
  status : String
  priority : String
  due_date : Option Nat
  deriving DecidableEq, Repr

/-- `TaskService.create_task`.  `failCreate` is the oracle for
`Task.objects.create` raising; `newId`/`now` model the fresh primary key and
`auto_now_add`/`auto_now` timestamps. -/
def create_task (user : Nat) (d : TaskData) (req : Option Request)
    (failCreate : Option String) (newId now : Nat) (db : DB) :
    Except String Task × DB :=
  match failCreate with
  | some msg =>
    (Except.error msg,
      log_activity db (some user) Action.ERROR "task"
        ("Error creating task: " ++ msg) req AStatus.FAILED)
  | none =>
    let task : Task :=
      { id := newId, user := user, title := d.title, description := d.description,
        status := d.status, priority := d.priority, due_date := d.due_date,
        created_at := now, updated_at := now }
    let db1 := { db with tasks := db.tasks ++ [task] }
    (Except.ok task,
      log_activity db1 (some user) Action.CREATE "task"
        ("Created task: " ++ task.title) req AStatus.SUCCESS)

/-- The validated payload of a (possibly partial) update: only the keys
present in `validated_data` carry a value. -/
structure TaskPatch where
  title : Option String
  description : Option String
  status : Option String
  priority : Option String
  due_date : Option (Option Nat)
  deriving DecidableEq, Repr

/-- Rendering of a `due_date` value inside the `f"{key}: {old} → {value}"`
transition string (Python renders `None` for an absent date). -/
def showDue : Option Nat → String
  | none => "None"
  | some n => toString n

/-- One iteration of the change-tracking loop in `update_task` for a
string-valued field: if the key is present and differs from the old value,
record `"key: old → new"` and apply it. -/
def trackStr (key old : String) : Option String → List String × String
  | none => ([], old)
  | some v =>
    if old ≠ v then ([key ++ ": " ++ old ++ " → " ++ v], v) else ([], old)

/-- The change-tracking loop of `update_task` for the `due_date` key. -/
def trackDue (old : Option Nat) : Option (Option Nat) → List String × Option Nat
  | none => ([], old)
  | some v =>
    if old ≠ v then (["due_date: " ++ showDue old ++ " → " ++ showDue v], v)
    else ([], old)

/-- The change-tracking loop of `update_task` over the serializer's field
order (title, description, status, priority, due_date): collected transition
strings and the in-memory task after all `setattr`s and `save` (which
refreshes `updated_at` via `auto_now`). -/
def applyPatch (t : Task) (p : TaskPatch) (now : Nat) : List String × Task :=
  let (c1, title') := trackStr "title" t.title p.title
  let (c2, description') := trackStr "description" t.description p.description
  let (c3, status') := trackStr "status" t.status p.status
  let (c4, priority') := trackStr "priority" t.priority p.priority
  let (c5, due') := trackDue t.due_date p.due_date
  (c1 ++ c2 ++ c3 ++ c4 ++ c5,
    { t with title := title', description := description', status := status',
             priority := priority', due_date := due', updated_at := now })

/-- `', '.join(changes) if changes else 'No changes'`. -/
def changeDescription (changes : List String) : String :=
  if changes.isEmpty then "No changes" else String.intercalate ", " changes

/-- `task.save()` at the database: replace the row with the same primary key. -/
def saveTask (tasks : List Task) (t : Task) : List Task :=
  tasks.map (fun x => if x.id = t.id then t else x)

/-- `TaskService.update_task`.  `failSave` is the oracle for `task.save()`
raising; `now` models `auto_now` on `updated_at`. -/
def update_task (task : Task) (p : TaskPatch) (req : Option Request)
    (failSave : Option String) (now : Nat) (db : DB) :
    Except String Task × DB :=
  let user := match req with | some r => r.user | none => task.user
  let (changes, task') := applyPatch task p now
  match failSave with
  | some msg =>
    (Except.error msg,
      log_activity db (some user) Action.ERROR "task"
        ("Error updating task: " ++ msg) req AStatus.FAILED)
  | none =>
    let db1 := { db with tasks := saveTask db.tasks task' }
    (Except.ok task',
      log_activity db1 (some user) Action.UPDATE "task"
        ("Updated task '" ++ task'.title ++ "': " ++ changeDescription changes)
        req AStatus.SUCCESS)

/-! `delete_task` is the one operation whose internal ordering matters
("log BEFORE deletion"), so it is embedded as a trace of primitive events
which is then folded over the database. -/

/-- Primitive database events, in the order the service body issues them. -/
inductive Ev
  | logAppend (e : AuditLog)
  | rowDelete (id : Nat)
  deriving DecidableEq, Repr

/-- Effect of one primitive event on the database. -/
def applyEv (db : DB) : Ev → DB
  | Ev.logAppend e => { db with audit := db.audit ++ [e] }
  | Ev.rowDelete i => { db with tasks := db.tasks.filter (fun t => t.id ≠ i) }

/-- The event trace of `TaskService.delete_task`: the DELETE audit row is
written first; then either `task.delete()` succeeds (row removal) or raises,
in which case the except-block writes the ERROR row and re-raises. -/
def delete_task_trace (task : Task) (req : Option Request)
    (failDelete : Option String) : List Ev :=
  let user := match req with | some r => r.user | none => task.user
  Ev.logAppend (mkAudit (some user) Action.DELETE "task"
      ("Deleted task: " ++ task.title) req AStatus.SUCCESS) ::
    match failDelete with
    | some msg =>
      [Ev.logAppend (mkAudit (some user) Action.ERROR "task"
          ("Error deleting task: " ++ msg) req AStatus.FAILED)]
    | none => [Ev.rowDelete task.id]

/-- `TaskService.delete_task`: run the event trace over the database; the
result re-raises the `task.delete()` exception unchanged when there is one. -/
def delete_task (task : Task) (req : Option Request)
    (failDelete : Option String) (db : DB) : Except String Unit × DB :=
  ((match failDelete with
    | some msg => Except.error msg
    | none => Except.ok ()),
    (delete_task_trace task req failDelete).foldl applyEv db)

/-- `TaskService.can_user_edit_task`: `task.user == user or user.is_superuser`
(Django compares model instances by primary key). -/
def can_user_edit_task (user : User) (task : Task) : Bool :=
  task.user = user.id || user.is_superuser

/-- `TaskService.can_user_delete_task`: same body as `can_user_edit_task`. -/
def can_user_delete_task (user : User) (task : Task) : Bool :=
  task.user = user.id || user.is_superuser

/-! ### Filtering (`TaskService.get_user_tasks`) -/

/-- `value` is a contiguous run inside `hay` (both as character lists). -/
def occursIn (needle : List Char) : List Char → Bool
  | [] => needle.isEmpty
  | c :: rest => needle.isPrefixOf (c :: rest) || occursIn needle rest

/-- Python `str.lower` over the ASCII model. -/
def lowerStr (s : String) : String :=
  ⟨s.data.map Char.toLower⟩

/-- Django `icontains`: case-insensitive substring test. -/
def icontains (hay needle : String) : Bool :=
  occursIn (lowerStr needle).data (lowerStr hay).data

/-- The filter dict built by `TaskListCreateView.get` from the query params;
a key maps to `none` when the query parameter is absent. -/
structure Filters where
  status : Option String
  priority : Option String
  search : Option String
  deriving DecidableEq, Repr

/-- Python truthiness of `filters.get(key)` for an optional string. -/
def truthy : Option String → Bool
  | none => false
  | some s => ¬s.isEmpty

/-- `TaskService.get_user_tasks`: scope to the user's rows, then apply each
filter only when its value is truthy.  The list models the queryset in its
default order (`Task.Meta.ordering = ['-created_at']`). -/
def get_user_tasks (db : List Task) (user : Nat) (filters : Option Filters) :
    List Task :=
  let queryset := db.filter (fun t => t.user = user)
  match filters with
  | none => queryset
  | some f =>
    let q1 := match f.status with
      | some s => if ¬s.isEmpty then queryset.filter (fun t => t.status = s)
                  else queryset
      | none => queryset
    let q2 := match f.priority with
      | some s => if ¬s.isEmpty then q1.filter (fun t => t.priority = s) else q1
      | none => q1
    match f.search with
    | some s =>
      if ¬s.isEmpty then
        q2.filter (fun t => icontains t.title s || icontains t.description s)
      else q2
    | none => q2

/-! ### Registration (`apps/authentication/serializers.py`) -/

/-- Python `value.replace('_', '')`. -/
def stripUnderscore (s : String) : String :=
  ⟨s.data.filter (fun c => c ≠ '_')⟩

/-- Python `str.isalnum` over the ASCII model: non-empty and every character
a letter or a digit. -/
def pyIsAlnum (s : String) : Bool :=
  ¬s.data.isEmpty && s.data.all (fun c => c.isAlpha || c.isDigit)

/-- `RegisterSerializer.validate_email`: reject when a stored row matches the
lowercased input exactly; otherwise return the lowercased value. -/
def validate_email (users : List User) (value : String) : Except String String :=
  if users.any (fun u => u.email = lowerStr value) then
    Except.error "Email already exists."
  else Except.ok (lowerStr value)

/-- `RegisterSerializer.validate_username`: uniqueness against the lowercased
input, then the `value.replace('_', '').isalnum()` format check. -/
def validate_username (users : List User) (value : String) :
    Except String String :=
  if users.any (fun u => u.username = lowerStr value) then
    Except.error "Username already exists."
  else if ¬pyIsAlnum (stripUnderscore value) then
    Except.error "Username can only contain letters, numbers and underscores."
  else Except.ok (lowerStr value)

/-- The registration flow of `RegisterView.post`: run the serializer's
field validators (in declared field order) and the object-level password
match, and only then persist via `create_user`.  On any validation failure
the user store is unchanged. -/
def register (users : List User) (username email password password_confirm :
    String) (newId : Nat) : Except String User × List User :=
  match validate_username users username with
  | Except.error e => (Except.error e, users)
  | Except.ok uname =>
    match validate_email users email with
    | Except.error e => (Except.error e, users)
    | Except.ok mail =>
      if password ≠ password_confirm then
        (Except.error "Password fields didn't match.", users)
      else
        let u : User := { id := newId, username := uname, email := mail,
                          password := password, is_active := true,
                          is_superuser := false }
        (Except.ok u, users ++ [u])

/-! ### Login (`apps/authentication/services.py`) -/

/-- Modelled from the spec: the Django authentication backend configuration
(`config/settings/base.py`, with `AUTHENTICATION_BACKENDS`) is not among the
source files; per the spec the login flow distinguishes "AccountInactive if
user exists but is deactivated" from bad credentials, so the backend is
modelled as returning the matching user regardless of the active flag
(the behavior of `AllowAllUsersModelBackend`): look the user up by exact
username and check the password. -/
def authenticate (users : List User) (username password : String) :
    Option User :=
  (users.find? (fun u => u.username = username)).bind
    (fun u => if u.password = password then some u else none)

/-- Result of a successful login: the user and the two issued tokens. -/
structure LoginResult where
  user : User
  access : String
  refresh : String
  deriving DecidableEq, Repr

/-- Opaque stand-ins for `RefreshToken.for_user` (external token service). -/
def mkAccessToken (uid : Nat) : String := "access-" ++ toString uid
def mkRefreshToken (uid : Nat) : String := "refresh-" ++ toString uid

/-- `AuthService.login_user` over an audit trail: authenticate, reject
inactive accounts, issue tokens; every failure path writes exactly one
ERROR/"authentication"/FAILED row before raising `ValueError`. -/
def login_user (users : List User) (username password : String)
    (req : Option Request) (audit : List AuditLog) :
    Except String LoginResult × List AuditLog :=
  match authenticate users username password with
  | none =>
    (Except.error "Invalid credentials",
      audit ++ [mkAudit none Action.ERROR "authentication"
        ("Login failed - invalid credentials: " ++ username) req AStatus.FAILED])
  | some user =>
    if ¬user.is_active then
      (Except.error "Account is inactive",
        audit ++ [mkAudit (some user.id) Action.ERROR "authentication"
          "Login failed - inactive account" req AStatus.FAILED])
    else
      (Except.ok { user := user, access := mkAccessToken user.id,
                   refresh := mkRefreshToken user.id },
        audit ++ [mkAudit (some user.id) Action.CREATE "authentication"
          "User logged in successfully" req AStatus.SUCCESS])

/-- `LoginView.post` after serializer validation: a `ValueError` from the
service maps to HTTP 401, success to 200. -/
def loginViewStatus (users : List User) (username password : String)
    (req : Option Request) (audit : List AuditLog) : Nat :=
  match login_user users username password req audit with
  | (Except.ok _, _) => 200
  | (Except.error _, _) => 401

/-! ### Task detail views (`apps/tasks/views.py`) -/

/-- `TaskDetailView.get_object`: `get_object_or_404` raises `Http404`
(modelled as `Except.error`) when no row has the primary key; a row that
fails `can_user_edit_task` is returned as `none`. -/
def get_object (tasks : List Task) (pk : Nat) (user : User) :
    Except Unit (Option Task) :=
  match tasks.find? (fun t => t.id = pk) with
  | none => Except.error ()
  | some t =>
    Except.ok (if can_user_edit_task user t then some t else none)

/-- HTTP status of `TaskDetailView.get`: 404 both when the row is absent and
when `get_object` returns `None` (permission refused), else 200. -/
def detailGetStatus (tasks : List Task) (pk : Nat) (user : User) : Nat :=
  match get_object tasks pk user with
  | Except.error () => 404
  | Except.ok none => 404
  | Except.ok (some _) => 200

/-- HTTP status of `TaskDetailView.put`/`patch` (`_update_task`): 404 on
absent-or-refused, 400 on serializer failure, 500 when the service raises,
200 otherwise. -/
def detailUpdateStatus (tasks : List Task) (pk : Nat) (user : User)
    (serializerValid : Bool) (failSave : Option String) : Nat :=
  match get_object tasks pk user with
  | Except.error () => 404
  | Except.ok none => 404
  | Except.ok (some _) =>
    if ¬serializerValid then 400
    else match failSave with
      | some _ => 500
      | none => 200

/-- HTTP status of `TaskDetailView.delete`: after `get_object`, a further
`can_user_delete_task` check guards the 403 branch, then the service runs. -/
def detailDeleteStatus (tasks : List Task) (pk : Nat) (user : User)
    (failDelete : Option String) : Nat :=
  match get_object tasks pk user with
  | Except.error () => 404
  | Except.ok none => 404
  | Except.ok (some t) =>
    if ¬can_user_delete_task user t then 403
    else match failDelete with
      | some _ => 500
      | none => 200

/-! ### Sample rows used to instantiate the theorems -/

def uAlice : User :=
  { id := 1, username := "alice", email := "alice@x.com",
    password := "Secret123!", is_active := true, is_superuser := false }

def uBob : User :=
  { id := 2, username := "bob", email := "bob@x.com",
    password := "Hunter2!!", is_active := true, is_superuser := false }

def tMilk : Task :=
  { id := 10, user := 1, title := "Buy milk", description := "Milk, eggs, bread",
    status := "TODO", priority := "HIGH", due_date := none,
    created_at := 5, updated_at := 5 }

def dbMilk : DB := { tasks := [tMilk], audit := [] }

/-! ### Theorems -/

/-- C3: `can_user_edit_task` and `can_user_delete_task` hold exactly when the
user is the task's owner or a superuser; a task produced by `create_task` for
owner `o` is editable by `o` and by no non-superuser with a different id.
Both predicates are plain functions of their two arguments in this
embedding, so they are pure and side-effect-free by construction. -/
theorem can_edit_iff_owner_or_superuser (u : User) (t : Task) (o : User)
    (d : TaskData) (req : Option Request) (newId now : Nat) (db : DB) (T : Task)
    (hT : (create_task o.id d req none newId now db).1 = Except.ok T) :
    (can_user_edit_task u t = true ↔ (t.user = u.id ∨ u.is_superuser = true)) ∧
    (can_user_delete_task u t = true ↔ (t.user = u.id ∨ u.is_superuser = true)) ∧
    can_user_edit_task o T = true ∧
    (∀ v : User, v.id ≠ o.id → v.is_superuser = false →
      can_user_edit_task v T = false) := by
  have hTu : T.user = o.id := by
    simp only [create_task] at hT
    cases hT
    rfl
  refine ⟨?_, ?_, ?_, ?_⟩
  · simp [can_user_edit_task]
  · simp [can_user_delete_task]
  · simp [can_user_edit_task, hTu]
  · intro v hid hsup
    simp [can_user_edit_task, hTu, hsup]
    omega

/-- Witness for C3 at concrete rows: Alice owns `tMilk` (created via
`create_task`), Bob is a distinct non-superuser. -/
theorem can_edit_iff_owner_or_superuser_witness :
    can_user_edit_task uBob tMilk = false ∧ can_user_edit_task uAlice tMilk = true := by
  have h := can_edit_iff_owner_or_superuser uBob tMilk uAlice
    { title := "Buy milk", description := "Milk, eggs, bread", status := "TODO",
      priority := "HIGH", due_date := none } none 10 5 { tasks := [], audit := [] }
    tMilk rfl
  exact ⟨h.2.2.2 uBob (by decide) (by decide), h.2.2.1⟩

/-- C10: `get_user_tasks` treats a filter value that is `None` or the empty
string as absent — replacing an empty-string value by an absent key leaves
the result unchanged for each of the three keys, and when no filter value is
truthy the result is exactly the user's task rows. -/
theorem empty_filter_values_are_absent (db : List Task) (u : Nat) (f : Filters) :
    get_user_tasks db u (some { f with status := some "" }) =
      get_user_tasks db u (some { f with status := none }) ∧
    get_user_tasks db u (some { f with priority := some "" }) =
      get_user_tasks db u (some { f with priority := none }) ∧
    get_user_tasks db u (some { f with search := some "" }) =
      get_user_tasks db u (some { f with search := none }) ∧
    (truthy f.status = false → truthy f.priority = false →
      truthy f.search = false →
      get_user_tasks db u (some f) = db.filter (fun t => t.user = u)) := by
  obtain ⟨fs, fp, fh⟩ := f
  have hemp : "".isEmpty = true := rfl
  refine ⟨?_, ?_, ?_, ?_⟩
  · simp [get_user_tasks, hemp]
  · simp [get_user_tasks, hemp]
  · simp [get_user_tasks, hemp]
  · intro hs hp hh
    cases fs with
    | none =>
      cases fp with
      | none =>
        cases fh with
        | none => simp [get_user_tasks]
        | some s => simp [truthy] at hh; simp [get_user_tasks, hh]
      | some s =>
        simp [truthy] at hp
        cases fh with
        | none => simp [get_user_tasks, hp]
        | some s2 => simp [truthy] at hh; simp [get_user_tasks, hp, hh]
    | some s =>
      simp [truthy] at hs
      cases fp with
      | none =>
        cases fh with
        | none => simp [get_user_tasks, hs]
        | some s2 => simp [truthy] at hh; simp [get_user_tasks, hs, hh]
      | some s1 =>
        simp [truthy] at hp
        cases fh with
        | none => simp [get_user_tasks, hs, hp]
        | some s2 => simp [truthy] at hh; simp [get_user_tasks, hs, hp, hh]

/-- Witness for C10: `GET /tasks?status=` (empty status) returns all of
Alice's tasks. -/
theorem empty_filter_values_are_absent_witness :
    get_user_tasks [tMilk] 1
        (some { status := some "", priority := none, search := none }) =
      [tMilk] := by
  have h := (empty_filter_values_are_absent [tMilk] 1
    { status := some "", priority := none, search := none }).2.2.2
  simpa using h (by decide) (by decide) (by decide)

/-- C7 counterexample: Bob (authenticated, not the owner, not a superuser)
requesting Alice's task id 10 receives 404 from every method of
`TaskDetailView`, not 403 as the claim states. -/
theorem forbidden_task_gets_404_not_403 :
    can_user_edit_task uBob tMilk = false ∧
    detailGetStatus [tMilk] 10 uBob = 404 ∧
    detailUpdateStatus [tMilk] 10 uBob true none = 404 ∧
    detailDeleteStatus [tMilk] 10 uBob none = 404 ∧
    detailGetStatus [tMilk] 10 uBob ≠ 403 := by
  decide

/-- C7 (amended): an absent task id yields 404; a request by an
authenticated user who is neither owner nor superuser also yields 404 —
authorization failure is reported identically to a missing row — and the
403 branch of `TaskDetailView.delete` is unreachable, because
`can_user_delete_task` coincides with the `can_user_edit_task` check
already performed in `get_object`. -/
theorem forbidden_task_responses (tasks : List Task) (pk : Nat) (u : User)
    (sv : Bool) (fs fd : Option String) :
    (tasks.find? (fun t => t.id = pk) = none →
      detailGetStatus tasks pk u = 404 ∧
      detailUpdateStatus tasks pk u sv fs = 404 ∧
      detailDeleteStatus tasks pk u fd = 404) ∧
    (∀ t, tasks.find? (fun t => t.id = pk) = some t →
      t.user ≠ u.id → u.is_superuser = false →
      detailGetStatus tasks pk u = 404 ∧
      detailUpdateStatus tasks pk u sv fs = 404 ∧
      detailDeleteStatus tasks pk u fd = 404) ∧
    detailDeleteStatus tasks pk u fd ≠ 403 := by
  refine ⟨?_, ?_, ?_⟩
  · intro hnone
    simp [detailGetStatus, detailUpdateStatus, detailDeleteStatus, get_object,
      hnone]
  · intro t hfind hown hsup
    have hcan : can_user_edit_task u t = false := by
      simp [can_user_edit_task, hsup]
      omega
    simp [detailGetStatus, detailUpdateStatus, detailDeleteStatus, get_object,
      hfind, hcan]
  · cases hfind : tasks.find? (fun t => t.id = pk) with
    | none => simp [detailDeleteStatus, get_object, hfind]
    | some t =>
      by_cases hcan : can_user_edit_task u t = true
      · have hdel : can_user_delete_task u t = true := hcan
        cases fd <;>
          simp [detailDeleteStatus, get_object, hfind, hcan, hdel]
      · simp at hcan
        simp [detailDeleteStatus, get_object, hfind, hcan]

/-- Witness for C7 (amended) at concrete rows: Bob requesting Alice's task
receives 404 on every method. -/
theorem forbidden_task_responses_witness :
    detailGetStatus [tMilk] 10 uBob = 404 ∧
    detailUpdateStatus [tMilk] 10 uBob true none = 404 ∧
    detailDeleteStatus [tMilk] 10 uBob none = 404 :=
  (forbidden_task_responses [tMilk] 10 uBob true none none).2.1 tMilk
    (by decide) (by decide) (by decide)

/-- C8: membership in `get_user_tasks` is exactly: a row of the database,
owned by the user, matching the status filter exactly, the priority filter
exactly, and the search filter as a case-insensitive substring of title or
description — each constraint applying only when its filter value is truthy.
Filtering preserves the queryset's default order
(`Task.Meta.ordering = ['-created_at']`), modelled as: if the database list
is sorted by `created_at` descending, so is the result. -/
theorem get_user_tasks_spec (db : List Task) (u : Nat) (f : Filters) (t : Task)
    (hord : db.Pairwise (fun a b => b.created_at ≤ a.created_at)) :
    (t ∈ get_user_tasks db u (some f) ↔
      (t ∈ db ∧ t.user = u ∧
        (∀ s, f.status = some s → s.isEmpty = false → t.status = s) ∧
        (∀ s, f.priority = some s → s.isEmpty = false → t.priority = s) ∧
        (∀ s, f.search = some s → s.isEmpty = false →
          (icontains t.title s || icontains t.description s) = true))) ∧
    (get_user_tasks db u (some f)).Pairwise
      (fun a b => b.created_at ≤ a.created_at) := by
  obtain ⟨fs, fp, fh⟩ := f
  constructor
  · cases fs <;> cases fp <;> cases fh <;>
      simp only [get_user_tasks, List.mem_filter] <;>
      (try split_ifs) <;>
      simp_all [List.mem_filter, and_assoc] <;>
      tauto
  · cases fs <;> cases fp <;> cases fh <;>
      simp only [get_user_tasks] <;>
      (try split_ifs) <;>
      first
        | exact hord.filter _
        | exact (hord.filter _).filter _
        | exact ((hord.filter _).filter _).filter _
        | exact (((hord.filter _).filter _).filter _).filter _

/-- Witness for C8: searching Alice's tasks for "milk" finds `tMilk`
("Buy milk") even though no status/priority filter is set. -/
theorem get_user_tasks_spec_witness :
    tMilk ∈ get_user_tasks [tMilk] 1
      (some { status := none, priority := none, search := some "milk" }) := by
  have h := (get_user_tasks_spec [tMilk] 1
    { status := none, priority := none, search := some "milk" } tMilk
    (by simp)).1
  refine h.mpr ⟨by simp, rfl, by simp, by simp, ?_⟩
  intro s hs _
  cases hs
  decide

/-! Helper facts about the change-tracking loop. -/

lemma trackStr_snd (k old : String) (o : Option String) :
    (trackStr k old o).2 = o.getD old := by
  cases o with
  | none => rfl
  | some v => by_cases h : old = v <;> simp [trackStr, h]

lemma trackDue_snd (old : Option Nat) (o : Option (Option Nat)) :
    (trackDue old o).2 = o.getD old := by
  cases o with
  | none => rfl
  | some v => by_cases h : old = v <;> simp [trackDue, h]

lemma trackStr_fst_nil_iff (k old : String) (o : Option String) :
    (trackStr k old o).1 = [] ↔ ∀ v, o = some v → v = old := by
  cases o with
  | none => simp [trackStr]
  | some v =>
    by_cases h : old = v <;> simp only [trackStr, h] <;> simp [eq_comm, h]

lemma trackDue_fst_nil_iff (old : Option Nat) (o : Option (Option Nat)) :
    (trackDue old o).1 = [] ↔ ∀ v, o = some v → v = old := by
  cases o with
  | none => simp [trackDue]
  | some v =>
    by_cases h : old = v <;> simp only [trackDue, h] <;> simp [eq_comm, h]

lemma trackStr_fst_mem (k old v : String) (h : v ≠ old) :
    (k ++ ": " ++ old ++ " → " ++ v) ∈ (trackStr k old (some v)).1 := by
  simp [trackStr, Ne.symm h]

/-- C9: a successful `update_task` applies exactly the fields present in the
payload (absent fields keep their old value), refreshes `updated_at` in every
case including the no-change case, and writes exactly one UPDATE/SUCCESS
audit row whose description is built from the "key: old → new" transition
strings of the fields that actually changed — or "No changes" when the
change list is empty, which happens exactly when every present field equals
its old value. -/
theorem update_task_field_semantics (task : Task) (p : TaskPatch)
    (req : Option Request) (now : Nat) (db : DB) :
    ∃ task',
      (update_task task p req none now db).1 = Except.ok task' ∧
      task'.title = p.title.getD task.title ∧
      task'.description = p.description.getD task.description ∧
      task'.status = p.status.getD task.status ∧
      task'.priority = p.priority.getD task.priority ∧
      task'.due_date = p.due_date.getD task.due_date ∧
      task'.id = task.id ∧ task'.user = task.user ∧
      task'.created_at = task.created_at ∧
      task'.updated_at = now ∧
      (update_task task p req none now db).2.audit =
        db.audit ++ [mkAudit
          (some (match req with | some r => r.user | none => task.user))
          Action.UPDATE "task"
          ("Updated task '" ++ task'.title ++ "': " ++
            changeDescription (applyPatch task p now).1)
          req AStatus.SUCCESS] ∧
      ((applyPatch task p now).1 = [] ↔
        ((∀ v, p.title = some v → v = task.title) ∧
         (∀ v, p.description = some v → v = task.description) ∧
         (∀ v, p.status = some v → v = task.status) ∧
         (∀ v, p.priority = some v → v = task.priority) ∧
         (∀ v, p.due_date = some v → v = task.due_date))) ∧
      ((applyPatch task p now).1 = [] →
        changeDescription (applyPatch task p now).1 = "No changes") ∧
      (∀ v, p.title = some v → v ≠ task.title →
        ("title: " ++ task.title ++ " → " ++ v) ∈ (applyPatch task p now).1) ∧
      (∀ v, p.status = some v → v ≠ task.status →
        ("status: " ++ task.status ++ " → " ++ v) ∈ (applyPatch task p now).1) ∧
      (∀ v, p.priority = some v → v ≠ task.priority →
        ("priority: " ++ task.priority ++ " → " ++ v) ∈
          (applyPatch task p now).1) := by
  refine ⟨(applyPatch task p now).2, rfl, ?_, ?_, ?_, ?_, ?_, ?_, ?_, ?_, ?_,
    ?_, ?_, ?_, ?_, ?_, ?_⟩
  · simp [applyPatch, trackStr_snd]
  · simp [applyPatch, trackStr_snd]
  · simp [applyPatch, trackStr_snd]
  · simp [applyPatch, trackStr_snd]
  · simp [applyPatch, trackDue_snd]
  · simp [applyPatch]
  · simp [applyPatch]
  · simp [applyPatch]
  · simp [applyPatch]
  · rfl
  · simp only [applyPatch, List.append_eq_nil]
    rw [trackStr_fst_nil_iff, trackStr_fst_nil_iff, trackStr_fst_nil_iff,
      trackStr_fst_nil_iff, trackDue_fst_nil_iff]
    tauto
  · intro h
    simp [changeDescription, h]
  · intro v hv hne
    simp only [applyPatch, List.mem_append]
    exact Or.inl (Or.inl (Or.inl (Or.inl (hv ▸ trackStr_fst_mem _ _ _ hne))))
  · intro v hv hne
    simp only [applyPatch, List.mem_append]
    exact Or.inl (Or.inl (Or.inr (hv ▸ trackStr_fst_mem _ _ _ hne)))
  · intro v hv hne
    simp only [applyPatch, List.mem_append]
    exact Or.inl (Or.inr (hv ▸ trackStr_fst_mem _ _ _ hne))

/-- Witness for C9: patching `tMilk`'s status to DONE records the
"status: TODO → DONE" transition; the patch with no keys yields the
"No changes" description. -/
theorem update_task_field_semantics_witness :
    ("status: TODO → DONE") ∈
      (applyPatch tMilk
        { title := none, description := none, status := some "DONE",
          priority := none, due_date := none } 7).1 ∧
    changeDescription
      (applyPatch tMilk
        { title := none, description := none, status := none,
          priority := none, due_date := none } 7).1 = "No changes" := by
  constructor
  · obtain ⟨task', h⟩ := update_task_field_semantics tMilk
      { title := none, description := none, status := some "DONE",
        priority := none, due_date := none } none 7 dbMilk
    exact h.2.2.2.2.2.2.2.2.2.2.2.2.2.2.1 "DONE" rfl (by decide)
  · obtain ⟨task', h⟩ := update_task_field_semantics tMilk
      { title := none, description := none, status := none,
        priority := none, due_date := none } none 7 dbMilk
    exact h.2.2.2.2.2.2.2.2.2.2.2.2.1 (by decide)

/-- C1: for each of `create_task`, `update_task`, `delete_task`: the success
path (no raising step) appends exactly one audit row, with status SUCCESS;
the failure path re-raises the caught exception unchanged and the appended
rows consist of zero or more SUCCESS rows followed by exactly one final row
with status FAILED and action ERROR, written before the re-raise. -/
theorem service_audit_invariant (user : Nat) (d : TaskData) (task : Task)
    (p : TaskPatch) (req : Option Request) (newId now : Nat) (db : DB)
    (msg : String) :
    ((∃ t, (create_task user d req none newId now db).1 = Except.ok t) ∧
     (∃ e, (create_task user d req none newId now db).2.audit =
        db.audit ++ [e] ∧ e.status = AStatus.SUCCESS)) ∧
    ((create_task user d req (some msg) newId now db).1 = Except.error msg ∧
     (∃ pre e, (create_task user d req (some msg) newId now db).2.audit =
        db.audit ++ pre ++ [e] ∧ e.status = AStatus.FAILED ∧
        e.action = Action.ERROR ∧ ∀ x ∈ pre, x.status = AStatus.SUCCESS)) ∧
    ((∃ t, (update_task task p req none now db).1 = Except.ok t) ∧
     (∃ e, (update_task task p req none now db).2.audit =
        db.audit ++ [e] ∧ e.status = AStatus.SUCCESS)) ∧
    ((update_task task p req (some msg) now db).1 = Except.error msg ∧
     (∃ pre e, (update_task task p req (some msg) now db).2.audit =
        db.audit ++ pre ++ [e] ∧ e.status = AStatus.FAILED ∧
        e.action = Action.ERROR ∧ ∀ x ∈ pre, x.status = AStatus.SUCCESS)) ∧
    ((delete_task task req none db).1 = Except.ok () ∧
     (∃ e, (delete_task task req none db).2.audit =
        db.audit ++ [e] ∧ e.status = AStatus.SUCCESS)) ∧
    ((delete_task task req (some msg) db).1 = Except.error msg ∧
     (∃ pre e, (delete_task task req (some msg) db).2.audit =
        db.audit ++ pre ++ [e] ∧ e.status = AStatus.FAILED ∧
        e.action = Action.ERROR ∧ ∀ x ∈ pre, x.status = AStatus.SUCCESS)) := by
  refine ⟨⟨⟨_, rfl⟩, ?_⟩, ⟨rfl, ?_⟩, ⟨⟨_, rfl⟩, ?_⟩, ⟨rfl, ?_⟩, ⟨rfl, ?_⟩,
    ⟨rfl, ?_⟩⟩
  · exact ⟨mkAudit (some user) Action.CREATE "task"
      ("Created task: " ++ d.title) req AStatus.SUCCESS,
      by simp [create_task, log_activity], rfl⟩
  · exact ⟨[], mkAudit (some user) Action.ERROR "task"
      ("Error creating task: " ++ msg) req AStatus.FAILED,
      by simp [create_task, log_activity], rfl, rfl, by simp⟩
  · exact ⟨mkAudit (some (match req with | some r => r.user | none => task.user))
      Action.UPDATE "task"
      ("Updated task '" ++ (applyPatch task p now).2.title ++ "': " ++
        changeDescription (applyPatch task p now).1) req AStatus.SUCCESS,
      by simp [update_task, log_activity], rfl⟩
  · exact ⟨[], mkAudit (some (match req with | some r => r.user | none => task.user))
      Action.ERROR "task" ("Error updating task: " ++ msg) req AStatus.FAILED,
      by simp [update_task, log_activity], rfl, rfl, by simp⟩
  · exact ⟨mkAudit (some (match req with | some r => r.user | none => task.user))
      Action.DELETE "task" ("Deleted task: " ++ task.title) req AStatus.SUCCESS,
      by simp [delete_task, delete_task_trace, applyEv], rfl⟩
  · exact ⟨[mkAudit (some (match req with | some r => r.user | none => task.user))
      Action.DELETE "task" ("Deleted task: " ++ task.title) req AStatus.SUCCESS],
      mkAudit (some (match req with | some r => r.user | none => task.user))
        Action.ERROR "task" ("Error deleting task: " ++ msg) req AStatus.FAILED,
      by simp [delete_task, delete_task_trace, applyEv], rfl, rfl,
      by simp [mkAudit]⟩

/-- C2: the event trace of `delete_task` contains exactly one append of an
audit row with action DELETE; any row-removal event targets the deleted
task's id and is strictly preceded in the trace by that DELETE append; at
the database level, a successful delete removes the row and the audit trail
ends with the DELETE entry. -/
theorem delete_task_logs_before_removal (task : Task) (req : Option Request)
    (failDelete : Option String) (db : DB) :
    (((delete_task_trace task req failDelete).filter
        (fun ev => match ev with
          | Ev.logAppend e => decide (e.action = Action.DELETE)
          | Ev.rowDelete _ => false)).length = 1) ∧
    (∀ n, Ev.rowDelete n ∈ delete_task_trace task req failDelete →
      n = task.id) ∧
    (∀ pre suf,
      delete_task_trace task req failDelete = pre ++ Ev.rowDelete task.id :: suf →
      ∃ e, Ev.logAppend e ∈ pre ∧ e.action = Action.DELETE) ∧
    ((delete_task task req none db).2.tasks =
      db.tasks.filter (fun t => t.id ≠ task.id)) ∧
    (∃ e, (delete_task task req none db).2.audit = db.audit ++ [e] ∧
      e.action = Action.DELETE) := by
  refine ⟨?_, ?_, ?_, ?_, ?_⟩
  · cases failDelete <;> rfl
  · intro n hn
    cases failDelete with
    | some m => simp [delete_task_trace] at hn
    | none =>
      simp [delete_task_trace] at hn
      omega
  · intro pre suf h
    cases failDelete with
    | some m =>
      exfalso
      have hmem : Ev.rowDelete task.id ∈ delete_task_trace task req (some m) := by
        rw [h]; simp
      simp [delete_task_trace] at hmem
    | none =>
      match pre with
      | [] => simp [delete_task_trace] at h
      | [a] =>
        simp only [delete_task_trace, List.cons_append, List.nil_append,
          List.cons.injEq] at h
        obtain ⟨ha, -⟩ := h
        subst ha
        exact ⟨_, List.mem_singleton_self _, rfl⟩
      | a :: b :: rest => simp [delete_task_trace] at h
  · simp [delete_task, delete_task_trace, applyEv]
  · exact ⟨mkAudit (some (match req with | some r => r.user | none => task.user))
      Action.DELETE "task" ("Deleted task: " ++ task.title) req AStatus.SUCCESS,
      by simp [delete_task, delete_task_trace, applyEv], rfl⟩

/-- Witness for C2: in the concrete success trace for Alice deleting
`tMilk`, the one row-removal event is preceded by the DELETE audit append. -/
theorem delete_task_logs_before_removal_witness :
    ∃ e, Ev.logAppend e ∈
        [Ev.logAppend (mkAudit (some 1) Action.DELETE "task"
          ("Deleted task: " ++ tMilk.title) none AStatus.SUCCESS)] ∧
      e.action = Action.DELETE :=
  (delete_task_logs_before_removal tMilk none none dbMilk).2.2.1
    [Ev.logAppend (mkAudit (some 1) Action.DELETE "task"
      ("Deleted task: " ++ tMilk.title) none AStatus.SUCCESS)] [] rfl

/-! Helper facts about the registration validators. -/

lemma validate_username_ok (users : List User) (value out : String)
    (h : validate_username users value = Except.ok out) :
    users.any (fun u => u.username = lowerStr value) = false ∧
    pyIsAlnum (stripUnderscore value) = true := by
  by_cases h1 : users.any (fun u => u.username = lowerStr value) = true
  · simp [validate_username, h1] at h
  · by_cases h2 : pyIsAlnum (stripUnderscore value) = true
    · exact ⟨by simpa using h1, h2⟩
    · simp at h2
      simp [validate_username, h1, h2] at h

lemma validate_email_ok (users : List User) (value out : String)
    (h : validate_email users value = Except.ok out) :
    users.any (fun u => u.email = lowerStr value) = false := by
  by_cases h1 : users.any (fun u => u.email = lowerStr value) = true
  · simp [validate_email, h1] at h
  · simpa using h1

/-- C4: registration fails (with a serializer `ValidationError`, modelled as
`Except.error`) and persists no user row whenever the password differs from
its confirmation, the username or email already exists case-insensitively
(the stored rows being lowercase-normalized, as registration guarantees), or
the username contains a character that is not a letter, digit or underscore. -/
theorem register_rejects_invalid (users : List User)
    (username email password confirm : String) (newId : Nat)
    (hnorm : ∀ u ∈ users,
      lowerStr u.username = u.username ∧ lowerStr u.email = u.email)
    (hbad : password ≠ confirm ∨
      (∃ u ∈ users, lowerStr u.username = lowerStr username) ∨
      (∃ u ∈ users, lowerStr u.email = lowerStr email) ∨
      (∃ c ∈ username.data,
        ¬(c.isAlpha = true ∨ c.isDigit = true ∨ c = '_'))) :
    (∃ e, (register users username email password confirm newId).1 =
      Except.error e) ∧
    (register users username email password confirm newId).2 = users := by
  cases hu : validate_username users username with
  | error e =>
    exact ⟨⟨e, by simp [register, hu]⟩, by simp [register, hu]⟩
  | ok uname =>
    cases he : validate_email users email with
    | error e =>
      exact ⟨⟨e, by simp [register, hu, he]⟩, by simp [register, hu, he]⟩
    | ok mail =>
      by_cases hp : password = confirm
      · exfalso
        obtain ⟨hany, hpy⟩ := validate_username_ok users username uname hu
        have hany2 := validate_email_ok users email mail he
        rcases hbad with hbad | ⟨u, hu', hq⟩ | ⟨u, hu', hq⟩ | ⟨c, hc, hbadc⟩
        · exact hbad hp
        · have h1 : u.username = lowerStr username :=
            ((hnorm u hu').1.symm).trans hq
          have h2 : users.any (fun u => u.username = lowerStr username) = true :=
            List.any_eq_true.mpr ⟨u, hu', by simp [h1]⟩
          rw [h2] at hany
          cases hany
        · have h1 : u.email = lowerStr email :=
            ((hnorm u hu').2.symm).trans hq
          have h2 : users.any (fun u => u.email = lowerStr email) = true :=
            List.any_eq_true.mpr ⟨u, hu', by simp [h1]⟩
          rw [h2] at hany2
          cases hany2
        · push_neg at hbadc
          obtain ⟨hna, hnd, hnu⟩ := hbadc
          have hcs : c ∈ (stripUnderscore username).data := by
            simp [stripUnderscore, List.mem_filter]
            exact ⟨hc, hnu⟩
          simp only [pyIsAlnum, Bool.and_eq_true] at hpy
          have := List.all_eq_true.mp hpy.2 c hcs
          simp [hna, hnd] at this
      · refine ⟨⟨"Password fields didn't match.", ?_⟩, ?_⟩ <;>
          simp [register, hu, he, hp]

/-- Witness for C4: registering "Alice" while "alice" exists (both lowercase
once normalized) is rejected and leaves the user table unchanged. -/
theorem register_rejects_invalid_witness :
    (∃ e, (register [uAlice] "Alice" "new@x.com" "Pw123!" "Pw123!" 2).1 =
      Except.error e) ∧
    (register [uAlice] "Alice" "new@x.com" "Pw123!" "Pw123!" 2).2 = [uAlice] := by
  refine register_rejects_invalid [uAlice] "Alice" "new@x.com" "Pw123!" "Pw123!" 2
    ?_ (Or.inr (Or.inl ⟨uAlice, List.mem_singleton_self _, by decide⟩))
  intro u hu
  rw [List.mem_singleton.mp hu]
  exact ⟨by decide, by decide⟩

/-! Helper facts about the authentication backend lookup. -/

lemma authenticate_eq_none (users : List User) (username password : String)
    (huniq : users.Pairwise (fun a b => a.username ≠ b.username))
    (hfail : (∀ u ∈ users, u.username ≠ username) ∨
      (∃ u ∈ users, u.username = username ∧ u.password ≠ password)) :
    authenticate users username password = none := by
  induction users with
  | nil => rfl
  | cons h t ih =>
    obtain ⟨hht, ht'⟩ := List.pairwise_cons.mp huniq
    by_cases hh : h.username = username
    · have hpw : h.password ≠ password := by
        rcases hfail with hall | ⟨u, hu, hun, hup⟩
        · exact absurd hh (hall h (List.mem_cons_self h t))
        · rcases List.mem_cons.mp hu with rfl | hut
          · exact hup
          · exact absurd (hh.trans hun.symm) (hht u hut)
      rw [authenticate, List.find?_cons_of_pos _ (by simp [hh])]
      simp [hpw]
    · rw [authenticate, List.find?_cons_of_neg _ (by simp [hh])]
      refine ih ht' ?_
      rcases hfail with hall | ⟨u, hu, hun, hup⟩
      · exact Or.inl (fun u hu => hall u (List.mem_cons_of_mem h hu))
      · rcases List.mem_cons.mp hu with rfl | hut
        · exact absurd hun hh
        · exact Or.inr ⟨u, hut, hun, hup⟩

lemma authenticate_eq_some (users : List User) (username password : String)
    (u : User)
    (huniq : users.Pairwise (fun a b => a.username ≠ b.username))
    (hmem : u ∈ users) (hun : u.username = username)
    (hup : u.password = password) :
    authenticate users username password = some u := by
  induction users with
  | nil => cases hmem
  | cons h t ih =>
    obtain ⟨hht, ht'⟩ := List.pairwise_cons.mp huniq
    rcases List.mem_cons.mp hmem with rfl | hut
    · rw [authenticate, List.find?_cons_of_pos _ (by simp [hun])]
      simp [hup]
    · have hh : h.username ≠ username := fun hcontr =>
        hht u hut (hcontr.trans hun.symm)
      rw [authenticate, List.find?_cons_of_neg _ (by simp [hh])]
      exact ih ht' hut

/-- C5: a login attempt with an unknown username or a wrong password (the
stored usernames being pairwise distinct, as the unique constraint
guarantees) raises the constant message "Invalid credentials" — the same
literal in both cases, so the message reveals nothing about which part was
wrong — after appending exactly one ERROR/"authentication"/FAILED audit row;
no tokens are issued (the result carries no `LoginResult`), and the view
maps the `ValueError` to HTTP 401. -/
theorem invalid_login_audited_and_401 (users : List User)
    (username password : String) (req : Option Request) (audit : List AuditLog)
    (huniq : users.Pairwise (fun a b => a.username ≠ b.username))
    (hfail : (∀ u ∈ users, u.username ≠ username) ∨
      (∃ u ∈ users, u.username = username ∧ u.password ≠ password)) :
    (login_user users username password req audit).1 =
      Except.error "Invalid credentials" ∧
    (login_user users username password req audit).2 =
      audit ++ [mkAudit none Action.ERROR "authentication"
        ("Login failed - invalid credentials: " ++ username) req
        AStatus.FAILED] ∧
    loginViewStatus users username password req audit = 401 := by
  have hA := authenticate_eq_none users username password huniq hfail
  refine ⟨?_, ?_, ?_⟩ <;> simp [login_user, loginViewStatus, hA]

/-- Witness for C5: Alice logging in with a wrong password gets
"Invalid credentials" and the view returns 401. -/
theorem invalid_login_audited_and_401_witness :
    (login_user [uAlice] "alice" "wrong" none []).1 =
      Except.error "Invalid credentials" ∧
    loginViewStatus [uAlice] "alice" "wrong" none [] = 401 := by
  have h := invalid_login_audited_and_401 [uAlice] "alice" "wrong" none []
    (by simp)
    (Or.inr ⟨uAlice, List.mem_singleton_self _, by decide, by decide⟩)
  exact ⟨h.1, h.2.2⟩

/-- C6: when a user row exists with the given username and the correct
password but `is_active = false`, `login_user` raises "Account is inactive"
— not the invalid-credentials error — after appending the
ERROR/"authentication"/FAILED audit row for the inactive account. -/
theorem inactive_login_distinct_error (users : List User)
    (username password : String) (req : Option Request) (audit : List AuditLog)
    (u : User)
    (huniq : users.Pairwise (fun a b => a.username ≠ b.username))
    (hmem : u ∈ users) (hun : u.username = username)
    (hup : u.password = password) (hinact : u.is_active = false) :
    (login_user users username password req audit).1 =
      Except.error "Account is inactive" ∧
    (login_user users username password req audit).2 =
      audit ++ [mkAudit (some u.id) Action.ERROR "authentication"
        "Login failed - inactive account" req AStatus.FAILED] ∧
    "Account is inactive" ≠ "Invalid credentials" := by
  have hA := authenticate_eq_some users username password u huniq hmem hun hup
  refine ⟨?_, ?_, by decide⟩ <;> simp [login_user, hA, hinact]

/-- Witness for C6 at a concrete deactivated user. -/
theorem inactive_login_distinct_error_witness :
    (login_user
      [{ id := 3, username := "carol", email := "carol@x.com",
         password := "Pw!", is_active := false, is_superuser := false }]
      "carol" "Pw!" none []).1 = Except.error "Account is inactive" :=
  (inactive_login_distinct_error
    [{ id := 3, username := "carol", email := "carol@x.com",
       password := "Pw!", is_active := false, is_superuser := false }]
    "carol" "Pw!" none []
    { id := 3, username := "carol", email := "carol@x.com",
      password := "Pw!", is_active := false, is_superuser := false }
    (by simp) (List.mem_singleton_self _) rfl rfl rfl).1

end BackendMindset
